import Mathlib

/-!
# Verification of the `sssom_pydantic` I/O layer

A shallow embedding of `src/sssom_pydantic/io.py` (reading/writing SSSOM TSV
files with `#`-prefixed YAML frontmatter, metadata propagation on read and
condensation on write), of the `Record`/`SemanticMapping` data model from
`src/sssom_pydantic/api.py` (the flat `Record` type itself lives in the
absent `models.py` module and is reconstructed from the specification), and
of the curation operation from the absent `process.py` module (modelled from
the specification).

Python `dict`s are embedded as association lists with first-key wins lookup
and insert-or-replace update; cell and metadata values are embedded by the
inductive type `Value`; fallible code returns `Except String`.
-/

namespace SSSOM

/-! ## String utilities (Python `str` semantics on UTF-8 code points) -/

/-- Python whitespace characters relevant to `str.strip`. -/
def isPyWS (c : Char) : Bool :=
  c == ' ' || c == '\t' || c == '\n' || c == '\r' || c == '\x0b' || c == '\x0c'

/-- Python `str.lstrip()` on a character list. -/
def lstripL (l : List Char) : List Char := l.dropWhile isPyWS

/-- Python `str.rstrip()` on a character list. -/
def rstripL (l : List Char) : List Char := (lstripL l.reverse).reverse

/-- Python `str.strip()`. -/
def pyStrip (s : String) : String := ⟨lstripL (rstripL s.data)⟩

/-- Python `str.rstrip()`. -/
def pyRstrip (s : String) : String := ⟨rstripL s.data⟩

/-- Python `str.lstrip("#")`: drop every leading `#`. -/
def lstripHash (s : String) : String := ⟨s.data.dropWhile (· == '#')⟩

/-- Split a character list on a separator character; `[]` splits to `[[]]`,
mirroring Python's `"".split(sep) == [""]`. -/
def splitCharsOn (sep : Char) : List Char → List (List Char)
  | [] => [[]]
  | c :: cs =>
    match splitCharsOn sep cs with
    | [] => [[]]
    | seg :: rest => if c == sep then [] :: seg :: rest else (c :: seg) :: rest

/-- Python `s.split(sep)` for a one-character separator. -/
def pySplit (s : String) (sep : Char) : List String :=
  (splitCharsOn sep s.data).map (fun l => ⟨l⟩)

/-- Python `sep.join(items)`. -/
def pyJoin (sep : String) (items : List String) : String :=
  match items with
  | [] => ""
  | x :: xs => xs.foldl (fun acc y => acc ++ sep ++ y) x

/-- Python `s.startswith("#")`. -/
def startsWithHash (s : String) : Bool :=
  match s.data with
  | [] => false
  | c :: _ => c == '#'

/-- Truthiness of a Python string: non-empty. -/
def strTruthy (s : String) : Bool := s ≠ ""

/-- Python `s.startswith(p)` (structurally recursive form). -/
def strStartsWith (s p : String) : Bool := s.data.take p.data.length == p.data

/-- Python `s.endswith(p)` (structurally recursive form). -/
def strEndsWith (s p : String) : Bool :=
  s.data.reverse.take p.data.length == p.data.reverse

/-- Python `s[:-n]` (drop the last `n` characters). -/
def strDropRight (s : String) (n : Nat) : String :=
  ⟨s.data.take (s.data.length - n)⟩

/-- Lexicographic strict comparison of character lists by code point
(Python string `<`). -/
def charListLt : List Char → List Char → Bool
  | [], [] => false
  | [], _ :: _ => true
  | _ :: _, [] => false
  | a :: as, b :: bs => if a < b then true else if b < a then false else charListLt as bs

/-- Python string `<=`. -/
def strLe (a b : String) : Bool := !charListLt b.data a.data

/-- Python `sorted(l)` on strings: stable insertion sort in code-point
order. -/
def insertSorted (x : String) : List String → List String
  | [] => [x]
  | y :: ys => if strLe x y then x :: y :: ys else y :: insertSorted x ys

/-- Python `sorted` for a list of strings. -/
def sortedStrings (l : List String) : List String := l.foldr insertSorted []

/-! ## Cell and metadata values

The values a `Record` field, a raw TSV row entry, or a YAML frontmatter
entry can carry: strings, lists of strings (multivalued fields), dates
(embedded by their ISO string), nested string-to-string maps (the
`curie_map` frontmatter key), and tuples (produced by condensation of
list-valued fields, `tuple(sorted(value))`). -/

inductive Value where
  | vstr (s : String)
  | vlist (l : List String)
  | vdate (iso : String)
  | vmap (m : List (String × String))
  | vtuple (l : List String)
  deriving DecidableEq, Repr

/-- Python truthiness of a value: empty strings and empty collections are
falsy, dates are always truthy. -/
def Value.truthy : Value → Bool
  | .vstr s => s ≠ ""
  | .vlist l => !l.isEmpty
  | .vdate _ => true
  | .vmap m => !m.isEmpty
  | .vtuple l => !l.isEmpty

/-- Whether a value is a Python `str` (`isinstance(v, str)`); dates are not
strings. -/
def Value.isStr : Value → Bool
  | .vstr _ => true
  | _ => false

/-! ## Association lists standing in for Python dicts -/

/-- First-match lookup in an association list (Python `d.get(k)` /
`d[k]`-with-default-`None` via `getattr`). -/
def alookup {α : Type} : List (String × α) → String → Option α
  | [], _ => none
  | (k', v) :: rest, k => if k' = k then some v else alookup rest k

/-- Python `d[k] = v`: replace the value in place if the key is present,
append at the end otherwise. -/
def ainsert {α : Type} : List (String × α) → String → α → List (String × α)
  | [], k, v => [(k, v)]
  | (k', v') :: rest, k, v =>
    if k' = k then (k, v) :: rest else (k', v') :: ainsert rest k v

/-- Python `d.pop(k, default)`, the remaining-dict part: remove every
binding of the key (association lists here never bind a key twice). -/
def aerase {α : Type} (l : List (String × α)) (k : String) : List (String × α) :=
  l.filter (fun kv => kv.1 ≠ k)

/-! ## Schema constants (`src/sssom_pydantic/constants.py`) -/

/-- The reserved frontmatter key holding the per-file prefix map
(`PREFIX_MAP_KEY = "curie_map"`). -/
def prefixMapKey : String := "curie_map"

/-- `PROPAGATABLE`: the record fields that may be lifted to / propagated
from the frontmatter.  The Python object is a `set`; it is embedded as a
duplicate-free list, since only membership (and never iteration order) is
observable in the embedded functions. -/
def propagatable : List String :=
  ["cardinality_scope", "curation_rule", "curation_rule_text", "mapping_date",
   "mapping_provider", "mapping_tool", "mapping_tool_id", "mapping_tool_version",
   "object_match_field", "object_preprocessing", "object_source",
   "object_source_version", "object_type", "predicate_type",
   "similarity_measure", "subject_match_field", "subject_preprocessing",
   "subject_source", "subject_source_version", "subject_type"]

/-- `MULTIVALUED`: the record fields whose serialized form is a
pipe-delimited string and whose in-memory form is a list. -/
def multivalued : List String :=
  ["author_id", "author_label", "creator_id", "creator_label",
   "reviewer_id", "reviewer_label", "curation_rule", "curation_rule_text",
   "match_string", "see_also", "object_match_field", "object_preprocessing",
   "subject_match_field", "subject_preprocessing", "cardinality_scope"]

/-- `DEFAULT_PREFIX_MAP`: the built-in prefix map layer. -/
def defaultPrefixMap : List (String × String) :=
  [("skos", "http://www.w3.org/2004/02/skos/core#"),
   ("rdf", "http://www.w3.org/1999/02/22-rdf-syntax-ns#"),
   ("orcid", "https://orcid.org/"),
   ("rdfs", "http://www.w3.org/2000/01/rdf-schema#"),
   ("sssom", "https://w3id.org/sssom/"),
   ("semapv", "https://w3id.org/semapv/vocab/"),
   ("owl", "http://www.w3.org/2002/07/owl#")]

/-- The `Record` fields that are `datetime.date`-typed.  `models.py` is not
part of the sources; per the specification the temporal fields are
`publication_date` and `mapping_date` ("all fields are primitive
(string/float/date)"), matching the `datetime.date | None` annotations on
`SemanticMapping` in `api.py`. -/
def dateFields : List String := ["publication_date", "mapping_date"]

/-- Modelled from the spec: the canonical `Record` field declaration order
(`Record.model_fields`).  `models.py` is absent from the sources; the field
enumeration follows the specification's §3 Record description and the
keyword arguments of `SemanticMapping.to_record` in `api.py`, whose
grouping (subject block, predicate block, object block, justification,
provenance, temporal, qualitative, mapping-set block) fixes the order. -/
def recordFields : List String :=
  ["record_id",
   "subject_id", "subject_label", "subject_category", "subject_match_field",
   "subject_preprocessing", "subject_source", "subject_source_version", "subject_type",
   "predicate_id", "predicate_label", "predicate_modifier", "predicate_type",
   "object_id", "object_label", "object_category", "object_match_field",
   "object_preprocessing", "object_source", "object_source_version", "object_type",
   "mapping_justification",
   "author_id", "author_label", "creator_id", "creator_label",
   "reviewer_id", "reviewer_label",
   "publication_date", "mapping_date",
   "comment", "confidence", "curation_rule", "curation_rule_text",
   "issue_tracker_item", "license",
   "mapping_cardinality", "cardinality_scope", "mapping_provider", "mapping_source",
   "mapping_tool", "mapping_tool_id", "mapping_tool_version",
   "match_string", "other", "see_also", "similarity_measure", "similarity_score",
   "mapping_set_id", "mapping_set_confidence", "mapping_set_description",
   "mapping_set_source", "mapping_set_title", "mapping_set_version"]

/-! ## The `Record` model

`models.py` is absent from the sources, so the `Record` pydantic model is
embedded as an association list holding exactly the fields that are set to
a non-`None` value: a field that is unset or `None` is absent from the
list.  This is observationally faithful to every use in `io.py`:
`getattr(record, key)` is `Record.get`, `record.model_fields_set` together
with the non-`None` check in `_get_columns` is key membership, and
`record.model_dump(exclude_none=True, exclude_unset=True,
exclude_defaults=True)` is the list itself (every optional field defaults
to `None`). -/

structure Record where
  fields : List (String × Value)
  deriving DecidableEq, Repr

/-- `getattr(record, key)`: `none` stands for Python `None`. -/
def Record.get (r : Record) (key : String) : Option Value :=
  alookup r.fields key

/-! ## Condensation (`_get_condensation`, io.py lines 149-169) -/

/-- The canonical representation a propagatable field value gets as a
`Counter` key: `None` stays `None`, a list becomes `tuple(sorted(value))`,
a string stays itself, and any other type (in particular `datetime.date`)
raises `TypeError` — represented by `cerror`. -/
inductive CVal where
  | cnone
  | cstr (s : String)
  | ctuple (l : List String)
  | cerror
  deriving DecidableEq, Repr

/-- The `Counter` key for one record and one propagatable field. -/
def cval (r : Record) (key : String) : CVal :=
  match r.get key with
  | none => .cnone
  | some (.vstr s) => .cstr s
  | some (.vlist l) => .ctuple (sortedStrings l)
  | some _ => .cerror

/-- The distinct `Counter` keys observed for a field across the records
(`len(counter)` and `next(iter(counter))` only depend on these). -/
def distinctVals (records : List Record) (key : String) : List CVal :=
  (records.map (fun r => cval r key)).dedup

/-- The condensation value for one field: defined exactly when the field
has a single distinct observed value and that value is neither `None` nor
a type error. -/
def condValue (records : List Record) (key : String) : Option CVal :=
  match distinctVals records key with
  | [.cstr s] => some (.cstr s)
  | [.ctuple l] => some (.ctuple l)
  | _ => none

/-- The condensed `{key: value}` pairs, keyed in canonical `PROPAGATABLE`
order (the Python dict's key order is never observable: membership decides
the column filter and YAML output sorts keys). -/
def condensedPairs (records : List Record) : List (String × CVal) :=
  propagatable.filterMap (fun key => (condValue records key).map (fun v => (key, v)))

/-- `_get_condensation`: raises `TypeError` as soon as a propagatable field
holds a value that is neither `None`, `str` nor `list` (for instance a
`datetime.date`); otherwise returns the condensed pairs. -/
def _get_condensation (records : List Record) : Except String (List (String × CVal)) :=
  if records.all (fun r => propagatable.all (fun key => cval r key ≠ .cerror)) then
    .ok (condensedPairs records)
  else
    .error "TypeError: unhandled value type"

/-! ## Columns (`_get_columns`, io.py lines 172-180) -/

/-- `_get_columns`: the fields set to a non-`None` value in at least one
record, in canonical field order. -/
def _get_columns (records : List Record) : List String :=
  recordFields.filter (fun f => records.any (fun r => (r.get f).isSome))

/-! ## Row serialization (`_unprocess_row`, io.py lines 183-190) -/

/-- A raw row / metadata dict: string keys to values. -/
abbrev Row : Type := List (String × Value)

/-- `"|".join(v)` exactly as Python evaluates it **when `v` is a `str`**:
the pipe is interleaved between the characters of the string. -/
def pipeJoinChars (s : String) : String :=
  pyJoin "|" (s.data.map (fun c => String.mk [c]))

/-- `_unprocess_row`: dump the set, non-`None`, non-condensed fields, then
for each multivalued key whose value is truthy **and a `str`** replace it by
`"|".join(value)`.  Note the `isinstance(v, str)` test: a list value (the
type multivalued fields actually carry) is left as a list, and a string
value has `"|"` interleaved between its characters. -/
def _unprocess_row (r : Record) (condensedKeys : List String) : Row :=
  let dumped : Row := r.fields.filter (fun kv => ¬ condensedKeys.contains kv.1)
  multivalued.foldl
    (fun (row : Row) key =>
      match alookup row key with
      | some v => if v.truthy && v.isStr then
          match v with
          | .vstr s => ainsert row key (.vstr (pipeJoinChars s))
          | _ => row
        else row
      | none => row)
    dumped

/-- Python `repr` of a list of strings, which is what `csv.DictWriter`
writes for a cell whose value is still a `list` (`str(value)` is taken for
non-string cells): `['a', 'b']`. -/
def pyReprStrList (l : List String) : String :=
  "[" ++ pyJoin ", " (l.map (fun s => "'" ++ s ++ "'")) ++ "]"

/-- How `csv.DictWriter` renders one cell value (`str(v)` for non-`str`
values; values in these rows never contain the delimiter, so no quoting
applies). -/
def renderCell : Value → String
  | .vstr s => s
  | .vlist l => pyReprStrList l
  | .vdate iso => iso
  | .vmap m =>
    "\x7b" ++ pyJoin ", " (m.map (fun kv => "'" ++ kv.1 ++ "': '" ++ kv.2 ++ "'"))
      ++ "\x7d"
  | .vtuple l => "(" ++ pyJoin ", " (l.map (fun s => "'" ++ s ++ "'")) ++ ")"

/-- One TSV body line: the row's cells in column order, missing keys
rendered as the empty `restval`. -/
def renderRow (columns : List String) (row : Row) : String :=
  pyJoin "\t" (columns.map (fun c => match alookup row c with
    | some v => renderCell v
    | none => ""))

/-! ## YAML frontmatter serialization (`yaml.safe_dump`, restricted)

`yaml.safe_dump` is embedded for the value shapes the writer can actually
put into the metadata dict: strings, dates, nested string maps
(`curie_map`) and lists.  Keys are emitted sorted (the `safe_dump`
default), nested map keys likewise.  A Python `tuple` — what condensation
stores for a uniform list-valued field — is **not representable** by
`yaml.safe_dump` and raises `RepresentationError`. -/

/-- Insertion sort of key-value pairs by key (code-point order, matching
`yaml.safe_dump`'s sorted keys). -/
def insertByKey {α : Type} (x : String × α) : List (String × α) → List (String × α)
  | [] => [x]
  | y :: ys => if charListLt x.1.data y.1.data then x :: y :: ys else y :: insertByKey x ys

/-- Sort an association list by key. -/
def sortByKey {α : Type} (l : List (String × α)) : List (String × α) :=
  l.foldr insertByKey []

/-- `yaml.safe_dump(metadata).splitlines()`. -/
def yamlDump (md : Row) : Except String (List String) := do
  let dumpOne : String × Value → Except String (List String) := fun kv =>
    match kv.2 with
    | .vstr s => .ok [kv.1 ++ ": " ++ s]
    | .vdate iso => .ok [kv.1 ++ ": " ++ iso]
    | .vmap m =>
      if m.isEmpty then .ok [kv.1 ++ ": {}"]
      else .ok ((kv.1 ++ ":") :: (sortByKey m).map (fun e => "  " ++ e.1 ++ ": " ++ e.2))
    | .vlist l =>
      if l.isEmpty then .ok [kv.1 ++ ": []"]
      else .ok ((kv.1 ++ ":") :: l.map (fun s => "- " ++ s))
    | .vtuple _ => .error "RepresentationError: cannot represent an object (tuple)"
  let chunks ← (sortByKey md).mapM dumpOne
  .ok chunks.flatten

/-! ## The writer (`write_unprocessed`, io.py lines 103-146, and `write`,
lines 90-100) -/

/-- The write mode: `None`/`"w"` truncate, `"a"` appends. -/
inductive WMode where
  | w
  | a
  deriving DecidableEq, Repr

/-- The condensation value as stored into the metadata dict
(`metadata[key] = value`): strings stay strings, tuples stay tuples. -/
def CVal.toValue : CVal → Value
  | .cstr s => .vstr s
  | .ctuple l => .vtuple l
  | .cnone => .vstr ""
  | .cerror => .vstr ""

/-- io.py lines 119-122: assign every condensed key-value pair into the
caller's metadata dict (a conflicting explicit value is overwritten; the
mismatch is only logged). -/
def condInsert (md0 : Row) (cond : List (String × CVal)) : Row :=
  cond.foldl (fun (m : Row) kv => ainsert m kv.1 kv.2.toValue) md0

/-- io.py lines 124-131: without a converter, a metadata dict lacking a
truthy `curie_map` is a `ValueError`; with a converter, an already-truthy
`curie_map` is a `NotImplementedError`, and otherwise the converter's
`bimap` is assigned under `curie_map`. -/
def resolveConverterMetadata (md1 : Row)
    (converter? : Option (List (String × String))) : Except String Row :=
  match converter? with
  | none =>
    if ((alookup md1 prefixMapKey).map Value.truthy).getD false then .ok md1
    else .error ("ValueError: must have " ++ prefixMapKey ++ " in metadata if converter not given")
  | some c =>
    if ((alookup md1 prefixMapKey).map Value.truthy).getD false then
      .error "NotImplementedError"
    else .ok (ainsert md1 prefixMapKey (.vmap c))

/-- io.py lines 135-136 applied to the condensation actually computed:
the columns used in some record, minus the condensed keys. -/
def writerColumns (records : List Record) : List String :=
  (_get_columns records).filter
    (fun c => ¬ ((condensedPairs records).map Prod.fst).contains c)

/-- io.py lines 138-146, the file content below the metadata merge: the
`#`-prefixed `yaml.safe_dump` lines, the tab-joined header of the
non-condensed columns, and one rendered row per record. -/
def writeBody (records : List Record) (cond : List (String × CVal)) (md2 : Row) :
    Except String (List String) := do
  let condensedKeys := cond.map Prod.fst
  let columns := (_get_columns records).filter (fun c => ¬ condensedKeys.contains c)
  let yamlLines ← yamlDump md2
  .ok (yamlLines.map (fun l => "#" ++ l)
      ++ [pyJoin "\t" columns]
      ++ records.map (fun r => renderRow columns (_unprocess_row r condensedKeys)))

/-- `write_unprocessed`.  The file is embedded as its list of lines; in
append mode the freshly produced lines go after the pre-existing ones
(`existing`), which is what opening with `mode="a"` does.  The returned
metadata is the final state of the caller's dict, which the Python code
mutates in place (condensed values and the converter's `curie_map` are
assigned into it).  A converter is embedded by its `bimap`, a
prefix-to-URI association list. -/
def write_unprocessed (records : List Record) (metadata? : Option Row)
    (mode : WMode) (converter? : Option (List (String × String)))
    (existing : List String) : Except String (Row × List String) := do
  let cond ← _get_condensation records
  let md2 ← resolveConverterMetadata (condInsert (metadata?.getD []) cond) converter?
  let body ← writeBody records cond md2
  let out := match mode with
    | .w => body
    | .a => existing ++ body
  .ok (md2, out)

/-! ## Frontmatter chomping (`_chomp_frontmatter`, io.py lines 295-311) -/

/-- The recursion behind `_chomp_frontmatter`, over the file's lines:
consume leading `#` lines, stripping the markers and surrounding
whitespace; a line that becomes empty is skipped (it does not end the
block); the first non-`#` line (or the empty string returned by
`readline()` at end of file) is stripped and split on tab as the header.
Returns (columns, accumulated YAML lines, remaining lines). -/
def chompAux (acc : List String) :
    List String → List String × List String × List String
  | [] => (pySplit (pyStrip "") '\t', acc.reverse, [])
  | l :: rest =>
    if startsWithHash l then
      let s := pyRstrip (lstripHash l)
      if s = "" then chompAux acc rest else chompAux (s :: acc) rest
    else (pySplit (pyStrip l) '\t', acc.reverse, rest)

/-- `_chomp_frontmatter`. -/
def _chomp_frontmatter (lines : List String) :
    List String × List String × List String :=
  chompAux [] lines

/-! ## YAML frontmatter parsing (`yaml.safe_load`, restricted)

`yaml.safe_load` is embedded for the document shapes this file format
actually carries: top-level `key: scalar` entries and `key:` entries
followed by a two-space-indented block of `subkey: scalar` entries (the
`curie_map`).  Scalars may be surrounded by double quotes.  Anything else
is a parse error. -/

/-- Split a line at the first `": "` into key and value. -/
def splitKV : List Char → Option (List Char × List Char)
  | [] => none
  | ':' :: ' ' :: rest => some ([], rest)
  | c :: rest => (splitKV rest).map (fun p => (c :: p.1, p.2))

/-- Strip one pair of surrounding double quotes from a YAML scalar. -/
def unquote (s : String) : String :=
  match s.data with
  | '"' :: rest => if rest ≠ [] && rest.getLast! == '"' then ⟨rest.dropLast⟩ else s
  | _ => s

/-- Parse one `  subkey: scalar` line of an indented block. -/
def parseMapEntry (line : String) : Except String (String × String) :=
  match splitKV (pyStrip line).data with
  | some (k, v) => .ok (⟨k⟩, unquote (pyStrip ⟨v⟩))
  | none => .error "yaml: malformed mapping entry"

/-- One step of `yaml.safe_load` over the frontmatter lines: the state is
the document built so far together with the key of the currently open
indented block (if any).  A two-space-indented line extends the open
block's nested map; a `key: value` line adds a scalar entry; a trailing
`key:` line opens a nested block; anything else is a parse error. -/
def yamlParseStep (st : Row × Option String) (line : String) :
    Except String (Row × Option String) :=
  if strStartsWith line "  " then
    match st.2 with
    | some k =>
      match alookup st.1 k with
      | some (.vmap m) => do
        let e ← parseMapEntry line
        .ok (ainsert st.1 k (.vmap (m ++ [e])), some k)
      | _ => .error "yaml: indented entry outside a mapping block"
    | none => .error "yaml: unexpected indentation"
  else
    match splitKV line.data with
    | some (k, v) =>
      .ok (ainsert st.1 ⟨k⟩ (.vstr (unquote (pyStrip ⟨v⟩))), none)
    | none =>
      if strEndsWith line ":" then
        let key := strDropRight line 1
        .ok (ainsert st.1 key (.vmap []), some key)
      else .error "yaml: malformed document"

/-- `yaml.safe_load` on the accumulated frontmatter lines (restricted to
the shapes described above). -/
def yamlParse (lines : List String) : Except String Row :=
  (lines.foldlM yamlParseStep ([], none)).map Prod.fst

/-! ## Row cleaning and propagation (`_clean_row` lines 193-199,
`_preprocess_row` lines 202-219, `parse_row` lines 222-226) -/

/-- `_clean_row`: keep entries with a truthy key and a truthy value whose
stripped form is truthy and not the `.` null sentinel; the kept value is
the stripped one. -/
def _clean_row (row : List (String × String)) : List (String × String) :=
  row.filterMap (fun kv =>
    if kv.1 ≠ "" && kv.2 ≠ "" then
      let stripped := pyStrip kv.2
      if stripped ≠ "" && stripped ≠ "." then some (kv.1, stripped) else none
    else none)

/-- `[y for x in v.split("|") if (y := x.strip())]`. -/
def splitPipe (s : String) : List String :=
  (pySplit s '|').filterMap (fun x =>
    let y := pyStrip x
    if y = "" then none else some y)

/-- Step 1 of `_preprocess_row`: for every propagatable key present in the
metadata, if the row's own value is absent or falsy, copy the metadata
value in, wrapping a plain string into a singleton list when the field is
multivalued.  (The Python loop runs over `PROPAGATABLE.intersection(metadata)`;
the keys are distinct so the set iteration order is immaterial.) -/
def propagateStep (metadata : Row) (row : Row) : Row :=
  propagatable.foldl
    (fun (r : Row) key =>
      match alookup metadata key with
      | some value =>
        if ((alookup r key).map Value.truthy).getD false then r
        else
          let value := if multivalued.contains key && value.isStr then
              match value with
              | .vstr s => Value.vlist [s]
              | v => v
            else value
          ainsert r key value
      | none => r)
    row

/-- Step 2 of `_preprocess_row`: split every multivalued value that is a
truthy `str` on the pipe delimiter, stripping segments and dropping empty
ones. -/
def splitStep (row : Row) : Row :=
  multivalued.foldl
    (fun (r : Row) key =>
      match alookup r key with
      | some v =>
        if v.truthy && v.isStr then
          match v with
          | .vstr s => ainsert r key (.vlist (splitPipe s))
          | _ => r
        else r
      | none => r)
    row

/-- `_preprocess_row` (the `if metadata:` guard skips propagation both for
`None` and for an empty dict). -/
def _preprocess_row (row : Row) (metadata? : Option Row) : Row :=
  let r1 := match metadata? with
    | some md => if md.isEmpty then row else propagateStep md row
    | none => row
  splitStep r1

/-- The `Record` fields that must be present after preprocessing
(`models.py` is absent; the specification makes the triple and the
justification required). -/
def requiredFields : List String :=
  ["subject_id", "predicate_id", "object_id", "mapping_justification"]

/-- `Record.model_validate`: ignore unknown keys, require the required
fields, require list values exactly on multivalued fields, parse the
date-typed fields from their ISO strings, and store the fields in
canonical order. -/
def modelValidate (row : Row) : Except String Record := do
  let check : String → Except String (Option (String × Value)) := fun f =>
    match alookup row f with
    | none =>
      if requiredFields.contains f then .error ("ValidationError: missing " ++ f)
      else .ok none
    | some v =>
      if multivalued.contains f then
        match v with
        | .vlist l => .ok (some (f, .vlist l))
        | _ => .error ("ValidationError: " ++ f ++ " expects a list")
      else if dateFields.contains f then
        match v with
        | .vstr s => .ok (some (f, .vdate s))
        | .vdate s => .ok (some (f, .vdate s))
        | _ => .error ("ValidationError: " ++ f ++ " expects a date")
      else
        match v with
        | .vstr s => .ok (some (f, .vstr s))
        | _ => .error ("ValidationError: " ++ f ++ " expects a scalar")
  let entries ← recordFields.mapM check
  .ok ⟨entries.filterMap id⟩

/-- `parse_row`. -/
def parse_row (row : Row) (metadata? : Option Row) : Except String Record :=
  modelValidate (_preprocess_row row metadata?)

/-! ## The reader (`read_unprocessed`, io.py lines 249-292, and `read`,
lines 229-246) -/

/-- First-key-wins merge of association lists (`ChainMap` flattened with
`dict(...)`, and `curies.chain` / `Converter.from_prefix_map` on chained
prefix maps, observed through lookups). -/
def firstWins {α : Type} (l : List (String × α)) : List (String × α) :=
  l.foldl (fun acc kv => if (alookup acc kv.1).isSome then acc else acc ++ [kv]) []

/-- `metadata.pop(PREFIX_MAP_KEY, {})`: the popped prefix map (empty when
the key is absent; a non-mapping value under `curie_map` is outside the
file format and never arises below) and the remaining dict. -/
def popPrefixMap (md : Row) : List (String × String) × Row :=
  match alookup md prefixMapKey with
  | some (.vmap m) => (m, aerase md prefixMapKey)
  | some _ => ([], aerase md prefixMapKey)
  | none => ([], md)

/-- `read_unprocessed` over the file's lines.  `external?` stands for the
already-YAML-parsed content of `metadata_path`, `metadata?` for the
explicit metadata argument.  Returns the records and the effective
converter (as a prefix map). -/
def read_unprocessed (lines : List String) (external? metadata? : Option Row)
    (converter? : Option (List (String × String))) :
    Except String (List Record × List (String × String)) := do
  let ext := external?.getD []
  let md := metadata?.getD []
  let (columns, yamlLines, rest) := _chomp_frontmatter lines
  let inline ← yamlParse yamlLines
  let (pmMd, md') := popPrefixMap md
  let (pmExt, ext') := popPrefixMap ext
  let (pmInline, inline') := popPrefixMap inline
  let rvConverter := firstWins (pmMd ++ pmExt ++ pmInline ++ defaultPrefixMap)
  let chained := firstWins (md' ++ ext' ++ inline')
  let rawRows := rest.filter (fun l => l ≠ "")
  let cleaned := rawRows.map (fun l =>
    (_clean_row ((columns.zip (pySplit l '\t')))).map (fun kv => (kv.1, Value.vstr kv.2)))
  let records ← (cleaned.filter (fun r => ¬ r.isEmpty)).mapM
    (fun r => parse_row r (some chained))
  let conv := match converter? with
    | some c => firstWins (c ++ rvConverter)
    | none => rvConverter
  .ok (records, conv)

/-! ## References and `SemanticMapping` (`api.py`) -/

/-- A (namable) reference: CURIE prefix, local identifier, optional display
name. -/
structure RefN where
  pfx : String
  identifier : String
  name : Option String := none
  deriving DecidableEq, Repr

/-- The CURIE string of a reference. -/
def RefN.curie (r : RefN) : String := r.pfx ++ ":" ++ r.identifier

/-- `converter.parse_curie(s, strict=True).to_pydantic(name=...)`: split on
the first colon, fail when there is none or the prefix is unknown to the
converter. -/
def parse_curie (conv : List (String × String)) (s : String) (name : Option String) :
    Except String RefN :=
  match splitCharsOn ':' s.data with
  | p :: i₀ :: is =>
    let pfx : String := ⟨p⟩
    let identifier : String := pyJoin ":" (List.map (fun l => ⟨l⟩) (i₀ :: is))
    if (alookup conv pfx).isSome then .ok ⟨pfx, identifier, name⟩
    else .error ("CURIE prefix not in converter: " ++ pfx)
  | _ => .error ("not a CURIE: " ++ s)

/-- `MappingSet` (api.py lines 299-311): `id` is required, the rest
optional.  `confidence` (a float) is embedded by its decimal string. -/
structure MappingSetL where
  id : String
  confidence : Option String := none
  description : Option String := none
  source : Option String := none
  title : Option String := none
  version : Option String := none
  deriving DecidableEq, Repr

/-- `MappingTool` (api.py lines 289-296). -/
structure MappingToolL where
  reference : Option RefN := none
  name : Option String := none
  version : Option String := none
  deriving DecidableEq, Repr

/-- `SemanticMapping` (api.py lines 25-206 via `RequiredSemanticMapping`
and `CoreSemanticMapping`): every field of the pydantic model, with floats
embedded by their decimal strings and dates by their ISO strings. -/
structure SemanticMapping where
  subject : RefN
  predicate : RefN
  object : RefN
  justification : RefN
  predicate_modifier : Option String := none
  mapping_set : MappingSetL
  record : Option RefN := none
  authors : Option (List RefN) := none
  confidence : Option String := none
  mapping_tool : Option MappingToolL := none
  license : Option String := none
  subject_category : Option String := none
  subject_match_field : Option (List RefN) := none
  subject_preprocessing : Option (List RefN) := none
  subject_source : Option RefN := none
  subject_source_version : Option String := none
  subject_type : Option String := none
  predicate_type : Option RefN := none
  object_category : Option String := none
  object_match_field : Option (List RefN) := none
  object_preprocessing : Option (List RefN) := none
  object_source : Option RefN := none
  object_source_version : Option String := none
  object_type : Option String := none
  creators : Option (List RefN) := none
  reviewers : Option (List RefN) := none
  publication_date : Option String := none
  mapping_date : Option String := none
  comment : Option String := none
  curation_rule : Option (List RefN) := none
  curation_rule_text : Option (List String) := none
  issue_tracker_item : Option RefN := none
  mapping_cardinality : Option String := none
  cardinality_scope : Option (List String) := none
  mapping_provider : Option String := none
  mapping_source : Option RefN := none
  match_string : Option String := none
  other : Option String := none
  see_also : Option String := none
  similarity_measure : Option String := none
  similarity_score : Option String := none

/-- `_join` (api.py lines 157-160): `None` for a missing or empty list,
otherwise the pipe-joined CURIEs — note this places a **string** into the
record's multivalued slot. -/
def _join (refs : Option (List RefN)) : Option Value :=
  match refs with
  | none => none
  | some [] => none
  | some l => some (.vstr (pyJoin "|" (l.map RefN.curie)))

/-- CURIE strings of an optional reference list (api.py passes the raw
reference lists into the record's `*_match_field`, `*_preprocessing` and
`curation_rule` slots; they are embedded by their CURIEs). -/
def curiesOf (refs : Option (List RefN)) : Option Value :=
  refs.map (fun l => .vlist (l.map RefN.curie))

/-- Entries 0-8 of the `to_record` keyword arguments. -/
def to_record_subject_entries (m : SemanticMapping) : List (String × Option Value) :=
  [("record_id", m.record.map (fun r => .vstr r.curie)),
   ("subject_id", some (.vstr m.subject.curie)),
   ("subject_label", m.subject.name.map .vstr),
   ("subject_category", m.subject_category.map .vstr),
   ("subject_match_field", curiesOf m.subject_match_field),
   ("subject_preprocessing", curiesOf m.subject_preprocessing),
   ("subject_source", m.subject_source.map (fun r => .vstr r.curie)),
   ("subject_source_version", m.subject_source_version.map .vstr),
   ("subject_type", m.subject_type.map .vstr)]

/-- Entries 9-12 of the `to_record` keyword arguments. -/
def to_record_predicate_entries (m : SemanticMapping) : List (String × Option Value) :=
  [("predicate_id", some (.vstr m.predicate.curie)),
   ("predicate_label", m.predicate.name.map .vstr),
   ("predicate_modifier", m.predicate_modifier.map .vstr),
   ("predicate_type", m.predicate_type.map (fun r => .vstr r.curie))]

/-- Entries 13-20 of the `to_record` keyword arguments. -/
def to_record_object_entries (m : SemanticMapping) : List (String × Option Value) :=
  [("object_id", some (.vstr m.object.curie)),
   ("object_label", m.object.name.map .vstr),
   ("object_category", m.object_category.map .vstr),
   ("object_match_field", curiesOf m.object_match_field),
   ("object_preprocessing", curiesOf m.object_preprocessing),
   ("object_source", m.object_source.map (fun r => .vstr r.curie)),
   ("object_source_version", m.object_source_version.map .vstr),
   ("object_type", m.object_type.map .vstr)]

/-- Entries 21-27 of the `to_record` keyword arguments. -/
def to_record_provenance_entries (m : SemanticMapping) : List (String × Option Value) :=
  [("mapping_justification", some (.vstr m.justification.curie)),
   ("author_id", _join m.authors),
   ("author_label", none),
   ("creator_id", _join m.creators),
   ("creator_label", none),
   ("reviewer_id", _join m.reviewers),
   ("reviewer_label", none)]

/-- Entries 28-35 of the `to_record` keyword arguments. -/
def to_record_qualitative_entries (m : SemanticMapping) : List (String × Option Value) :=
  [("publication_date", m.publication_date.map .vdate),
   ("mapping_date", m.mapping_date.map .vdate),
   ("comment", m.comment.map .vstr),
   ("confidence", m.confidence.map .vstr),
   ("curation_rule", curiesOf m.curation_rule),
   ("curation_rule_text", m.curation_rule_text.map .vlist),
   ("issue_tracker_item", m.issue_tracker_item.map (fun r => .vstr r.curie)),
   ("license", m.license.map .vstr)]

/-- Entries 36-42 of the `to_record` keyword arguments. -/
def to_record_tool_entries (m : SemanticMapping) : List (String × Option Value) :=
  [("mapping_cardinality", m.mapping_cardinality.map .vstr),
   ("cardinality_scope", m.cardinality_scope.map .vlist),
   ("mapping_provider", m.mapping_provider.map .vstr),
   ("mapping_source", m.mapping_source.map (fun r => .vstr r.curie)),
   ("mapping_tool", (m.mapping_tool.bind MappingToolL.name).map .vstr),
   ("mapping_tool_id",
      (m.mapping_tool.bind MappingToolL.reference).map (fun r => .vstr r.curie)),
   ("mapping_tool_version", (m.mapping_tool.bind MappingToolL.version).map .vstr)]

/-- Entries 43-47 of the `to_record` keyword arguments. -/
def to_record_extra_entries (m : SemanticMapping) : List (String × Option Value) :=
  [("match_string", m.match_string.map .vstr),
   ("other", m.other.map .vstr),
   ("see_also", m.see_also.map .vstr),
   ("similarity_measure", m.similarity_measure.map .vstr),
   ("similarity_score", m.similarity_score.map .vstr)]

/-- Entries 48-53 of the `to_record` keyword arguments. -/
def to_record_mapping_set_entries (m : SemanticMapping) : List (String × Option Value) :=
  [("mapping_set_id", some (.vstr m.mapping_set.id)),
   ("mapping_set_confidence", m.mapping_set.confidence.map .vstr),
   ("mapping_set_description", m.mapping_set.description.map .vstr),
   ("mapping_set_source", m.mapping_set.source.map .vstr),
   ("mapping_set_title", m.mapping_set.title.map .vstr),
   ("mapping_set_version", m.mapping_set.version.map .vstr)]

/-- `SemanticMapping.to_record` (api.py lines 208-286): one keyword
argument per record field; unset/`None` arguments leave the field absent.
(The entry list is assembled from per-block helper definitions purely to
keep each Lean definition small; concatenated, the entries are exactly the
keyword arguments of `to_record` in order.) -/
def to_record (m : SemanticMapping) : Record :=
  let entries := to_record_subject_entries m ++ to_record_predicate_entries m
      ++ to_record_object_entries m ++ to_record_provenance_entries m
      ++ to_record_qualitative_entries m ++ to_record_tool_entries m
      ++ to_record_extra_entries m ++ to_record_mapping_set_entries m
  ⟨entries.filterMap (fun kv => kv.2.map (fun v => (kv.1, v)))⟩

/-- `getattr(record, key)` restricted to a string field. -/
def Record.getStr (r : Record) (key : String) : Option String :=
  match r.get key with
  | some (.vstr s) => some s
  | _ => none

/-- `getattr(record, key)` restricted to a list field. -/
def Record.getList (r : Record) (key : String) : Option (List String) :=
  match r.get key with
  | some (.vlist l) => some l
  | _ => none

/-- Truthiness of an optional string (`None` and `""` are falsy). -/
def optTruthy (o : Option String) : Bool :=
  match o with
  | some s => s ≠ ""
  | none => false

/-- `_parse_curies` inside `parse_record`: `None` on a missing or empty
list, otherwise each entry parsed strictly. -/
def _parse_curies (conv : List (String × String)) (x : Option (List String)) :
    Except String (Option (List RefN)) :=
  match x with
  | none => .ok none
  | some [] => .ok none
  | some l => do
    let refs ← l.mapM (fun y => parse_curie conv y none)
    .ok (some refs)

/-- `parse_record` (io.py lines 38-87): resolve the triple and the
justification strictly, rebuild the mapping tool (a version without a name
or id is a `ValueError`), rebuild the nested mapping set (note: its
`confidence` receives the record's **mapping-level** `confidence` field),
and parse the author/creator/reviewer lists; every other field of the
produced `SemanticMapping` is left unset — the source ends with a
`TODO there's more to do!` comment. -/
def parse_record (record : Record) (conv : List (String × String)) :
    Except String SemanticMapping := do
  let getReq : String → Except String String := fun key =>
    match record.getStr key with
    | some s => .ok s
    | none => .error ("parse_record: missing " ++ key)
  let subject ← do
    let s ← getReq "subject_id"
    parse_curie conv s (record.getStr "subject_label")
  let predicate ← do
    let s ← getReq "predicate_id"
    parse_curie conv s (record.getStr "predicate_label")
  let obj ← do
    let s ← getReq "object_id"
    parse_curie conv s (record.getStr "object_label")
  let justification ← do
    let s ← getReq "mapping_justification"
    parse_curie conv s none
  let toolId := record.getStr "mapping_tool_id"
  let toolName := record.getStr "mapping_tool"
  let toolVersion := record.getStr "mapping_tool_version"
  let mappingTool ← do
    if optTruthy toolId || optTruthy toolName then
      let reference ← match toolId with
        | some s =>
          if s ≠ "" then (some ·) <$> parse_curie conv s none else .ok none
        | none => .ok none
      .ok (some (⟨reference, toolName, toolVersion⟩ : MappingToolL))
    else if optTruthy toolVersion then
      .error "ValueError: mapping tool version is dependent on having a name or ID"
    else
      .ok none
  let mappingSetId ← match record.getStr "mapping_set_id" with
    | some s => .ok s
    | none => .error "ValidationError: MappingSet requires an id"
  let authors ← _parse_curies conv (record.getList "author_id")
  let creators ← _parse_curies conv (record.getList "creator_id")
  let reviewers ← _parse_curies conv (record.getList "reviewer_id")
  .ok { subject := subject
        predicate := predicate
        object := obj
        justification := justification
        mapping_tool := mappingTool
        mapping_set :=
          { id := mappingSetId
            confidence := record.getStr "confidence"
            description := record.getStr "mapping_set_description"
            source := record.getStr "mapping_set_source"
            title := record.getStr "mapping_set_title"
            version := record.getStr "mapping_set_version" }
        authors := authors
        creators := creators
        reviewers := reviewers }

/-- `read`: read unprocessed records and resolve each one. -/
def read (lines : List String) (external? metadata? : Option Row)
    (converter? : Option (List (String × String))) :
    Except String (List SemanticMapping × List (String × String)) := do
  let (records, conv) ← read_unprocessed lines external? metadata? converter?
  let mappings ← records.mapM (fun r => parse_record r conv)
  .ok (mappings, conv)

/-- `write` (io.py lines 90-100): convert each mapping to a record and
write. -/
def write (mappings : List SemanticMapping) (metadata? : Option Row)
    (mode : WMode) (converter? : Option (List (String × String)))
    (existing : List String) : Except String (Row × List String) :=
  write_unprocessed (mappings.map to_record) metadata? mode converter? existing

/-- Writing a list of mappings with `write` and reading the produced file
back with `read`: the composition claimed to be the identity on semantic
content. -/
def writeReadRoundTrip (mappings : List SemanticMapping)
    (conv : List (String × String)) : Except String (List SemanticMapping) := do
  let (_md, lines) ← write mappings none .w (some conv) []
  let (out, _conv) ← read lines none none none
  .ok out

/-! ## Curation (`process.py`, absent from the sources; modelled from the
specification §4.6) -/

/-- Modelled from the spec: the "unsure" sentinel token embedded in the
free-text comment (`UNSURE` in `process.py`, which is absent from the
sources). -/
def unsureSentinel : String := "unsure"

/-- Modelled from the spec: the closed mark vocabulary of `curate`
(`mark ∈ {"correct","incorrect","unsure","EXACT","BROAD","NARROW"}`; the
"possibly other skos-match-type tokens" of §4.6 are exactly the predicate
rewrite marks the tests exercise). -/
def markVocabulary : List String :=
  ["correct", "incorrect", "unsure", "EXACT", "BROAD", "NARROW"]

/-- Substring test used to detect the embedded unsure marker. -/
def containsSubstr (haystack needle : String) : Bool :=
  (List.range (haystack.data.length + 1)).any
    (fun i => (haystack.data.drop i).take needle.data.length = needle.data)

/-- Modelled from the spec: whether a mapping's comment already carries the
"unsure" sentinel (either as the whole comment or embedded in parentheses
within it). -/
def hasUnsureMarker (m : SemanticMapping) : Bool :=
  match m.comment with
  | none => false
  | some c => containsSubstr c ("(" ++ unsureSentinel ++ ")") || c = unsureSentinel

/-- Modelled from the spec: the SKOS predicate for a predicate-rewrite
mark. -/
def skosPredicateFor (mark : String) : RefN :=
  if mark = "EXACT" then ⟨"skos", "exactMatch", none⟩
  else if mark = "BROAD" then ⟨"skos", "broadMatch", none⟩
  else ⟨"skos", "narrowMatch", none⟩

/-- Modelled from the spec: strip a trailing parenthesised unsure marker
from a comment, or clear a comment that is exactly the sentinel. -/
def stripUnsure (c : String) : Option String :=
  if c = unsureSentinel then none
  else if strEndsWith c (" (" ++ unsureSentinel ++ ")") then
    some (strDropRight c (" (" ++ unsureSentinel ++ ")").length)
  else some c

/-- Modelled from the spec: `curate(mapping, authors, mark, confidence)`
from the absent `process.py`.  `"correct"` moves to manual curation with
authors and today's date stamped and any unsure marker stripped;
`"incorrect"` additionally sets the `"Not"` predicate modifier;
`"EXACT"/"BROAD"/"NARROW"` additionally replace the predicate by the
corresponding SKOS match predicate; `"unsure"` leaves the justification
untouched and appends the sentinel to the comment, raising `ValueError`
when the sentinel is already present; every mark outside the closed
vocabulary raises `ValueError`.  `today` is threaded explicitly since the
embedding has no clock. -/
def curate (m : SemanticMapping) (authors : List RefN) (mark : String)
    (confidence : Option String) (today : String) :
    Except String SemanticMapping :=
  if ¬ markVocabulary.contains mark then
    .error ("ValueError: invalid mark: " ++ mark)
  else if mark = "unsure" then
    if hasUnsureMarker m then
      .error "ValueError: already marked unsure"
    else
      .ok { m with comment := match m.comment with
              | none => some unsureSentinel
              | some c => some (c ++ " (" ++ unsureSentinel ++ ")") }
  else
    let justification : RefN := ⟨"semapv", "ManualMappingCuration", none⟩
    let base := { m with
      justification := justification
      authors := some authors
      mapping_date := some today
      confidence := match confidence with
        | some c => some c
        | none => m.confidence
      comment := m.comment.bind stripUnsure }
    if mark = "correct" then
      .ok { base with predicate_modifier := none }
    else if mark = "incorrect" then
      .ok { base with predicate_modifier := some "Not" }
    else
      .ok { base with predicate_modifier := none
                      predicate := skosPredicateFor mark }

/-- The singleton-list wrap applied to a propagated metadata value
(`if key in MULTIVALUED and isinstance(value, str): value = [value]`). -/
def propWrap (F : String) (v : Value) : Value :=
  if multivalued.contains F && v.isStr then
    match v with
    | .vstr s => Value.vlist [s]
    | w => w
  else v

/-- The value `_preprocess_row` step 1 leaves at a propagatable key, as a
function of the row's prior value there. -/
def propagatedValue (md : Row) (F : String) (ov : Option Value) : Option Value :=
  match alookup md F with
  | none => ov
  | some v =>
    if (ov.map Value.truthy).getD false then ov
    else some (propWrap F v)

/-- The value `_preprocess_row` step 2 leaves at a multivalued key, as a
function of the row's prior value there. -/
def splitValue (ov : Option Value) : Option Value :=
  match ov with
  | none => none
  | some v =>
    if v.truthy && v.isStr then
      match v with
      | .vstr s => some (.vlist (splitPipe s))
      | _ => some v
    else some v

/-! ## Concrete instances used by the claim theorems -/

/-- A converter whose prefix map covers the CURIEs of `c1Mapping`. -/
def c1Converter : List (String × String) :=
  [("mesh", "https://meshuri/"), ("chebi", "https://chebiuri/"),
   ("skos", "https://skosuri/"), ("semapv", "https://semapvuri/")]

/-- A minimal semantic mapping carrying a free-text comment. -/
def c1Mapping : SemanticMapping :=
  { subject := ⟨"mesh", "C000089", none⟩
    predicate := ⟨"skos", "exactMatch", none⟩
    object := ⟨"chebi", "28646", none⟩
    justification := ⟨"semapv", "ManualMappingCuration", none⟩
    mapping_set := { id := "https://ex.org/ms" }
    comment := some "x" }

/-- `c1Mapping` with its comment dropped: what actually comes back from the
write/read round trip. -/
def c1MappingRead : SemanticMapping := { c1Mapping with comment := none }

/-- Two records that agree on `subject_id`; only the first carries a
`mapping_provider`. -/
def c2RecordVal : Record :=
  ⟨[("subject_id", .vstr "p:1"), ("mapping_provider", .vstr "x")]⟩

/-- The companion record with `mapping_provider` absent. -/
def c2RecordNone : Record := ⟨[("subject_id", .vstr "p:1")]⟩

/-- A two-element author list of CURIE strings. -/
def c4Authors : List String := ["orcid:0000-1", "orcid:0000-2"]

/-- A record whose multivalued `author_id` field holds a two-element
list. -/
def c4Record : Record :=
  ⟨[("subject_id", .vstr "p:1"), ("author_id", .vlist c4Authors)]⟩

/-- An existing four-line SSSOM file: frontmatter with a `curie_map`, a
four-column header, one row. -/
def c5Existing : List String :=
  ["#curie_map:", "#  p: https://puri/",
   "subject_id\tpredicate_id\tobject_id\tmapping_justification",
   "p:1\tp:2\tp:3\tp:4"]

/-- A record that needs a `comment` column, which the existing header of
`c5Existing` does not have. -/
def c5Record : Record := ⟨[("subject_id", .vstr "p:1"), ("comment", .vstr "new")]⟩

/-- The metadata under which `c5Record` is appended (carrying the
`curie_map` so that no converter is needed). -/
def c5Metadata : Row := [(prefixMapKey, .vmap [("p", "https://puri/")])]

/-- A record with its propagatable `mapping_date` field set (a
`datetime.date` value). -/
def c6Record : Record :=
  ⟨[("subject_id", .vstr "p:1"), ("mapping_date", .vdate "2025-01-01")]⟩

/-- An uncurated mapping already marked unsure in its comment. -/
def c7Mapping : SemanticMapping :=
  { subject := ⟨"a", "1", none⟩
    predicate := ⟨"skos", "exactMatch", none⟩
    object := ⟨"a", "2", none⟩
    justification := ⟨"semapv", "LexicalMatchingProcess", none⟩
    mapping_set := { id := "ms" }
    comment := some unsureSentinel }

/-- A one-field record for the converter/`curie_map` interaction. -/
def c9Record : Record := ⟨[("subject_id", .vstr "p:1")]⟩

/-- Metadata that already holds a non-empty `curie_map`. -/
def c9Metadata : Row := [(prefixMapKey, .vmap [("a", "urn:a/")])]

/-- A converter for the write-path theorems. -/
def c9Converter : List (String × String) :=
  [("p", "https://puri/"), ("src", "https://suri/")]

/-- One record with a uniform `subject_source`, so that condensation
produces a metadata entry. -/
def c10Records : List Record :=
  [⟨[("subject_id", .vstr "p:1"), ("subject_source", .vstr "src:1")]⟩]

/-! ## Lemma infrastructure -/

theorem alookup_ainsert_self {α : Type} (l : List (String × α)) (k : String) (v : α) :
    alookup (ainsert l k v) k = some v := by
  induction l with
  | nil => simp [ainsert, alookup]
  | cons hd tl ih =>
    by_cases h : hd.1 = k
    · simp [ainsert, alookup, h]
    · simp [ainsert, alookup, h, ih]

theorem alookup_ainsert_ne {α : Type} (l : List (String × α)) (k k' : String) (v : α)
    (h : k ≠ k') : alookup (ainsert l k v) k' = alookup l k' := by
  induction l with
  | nil => simp [ainsert, alookup, h]
  | cons hd tl ih =>
    by_cases hk : hd.1 = k
    · simp [ainsert, alookup, hk, h]
    · simp only [ainsert, alookup, if_neg hk]
      by_cases hk' : hd.1 = k'
      · simp [hk']
      · simp [hk', ih]


theorem alookup_filterMap_tag_notmem {β : Type} (keys : List String)
    (f : String → Option β) (F : String) (hF : F ∉ keys) :
    alookup (keys.filterMap (fun k => (f k).map (fun v => (k, v)))) F = none := by
  induction keys with
  | nil => rfl
  | cons k ks ih =>
    have hkF : k ≠ F := fun e => hF (e ▸ List.mem_cons_self k ks)
    have hFks : F ∉ ks := fun h => hF (List.mem_cons_of_mem _ h)
    cases hfk : f k with
    | none => simpa [List.filterMap_cons, hfk] using ih hFks
    | some v => simpa [List.filterMap_cons, hfk, alookup, hkF] using ih hFks

theorem alookup_filterMap_tag {β : Type} (keys : List String)
    (f : String → Option β) (F : String) (hnd : keys.Nodup) (hF : F ∈ keys) :
    alookup (keys.filterMap (fun k => (f k).map (fun v => (k, v)))) F = f F := by
  induction keys with
  | nil => cases hF
  | cons k ks ih =>
    rcases List.nodup_cons.mp hnd with ⟨hk, hnd'⟩
    rcases List.mem_cons.mp hF with h | h
    · subst h
      cases hfk : f F with
      | none =>
        simpa [List.filterMap_cons, hfk] using alookup_filterMap_tag_notmem ks f F hk
      | some v => simp [List.filterMap_cons, hfk, alookup]
    · have hkF : k ≠ F := fun e => hk (e ▸ h)
      cases hfk : f k with
      | none => simpa [List.filterMap_cons, hfk] using ih hnd' h
      | some v => simpa [List.filterMap_cons, hfk, alookup, hkF] using ih hnd' h

theorem dedup_const {α : Type} [DecidableEq α] (v : α) :
    ∀ (l : List α), l ≠ [] → (∀ x ∈ l, x = v) → l.dedup = [v] := by
  intro l
  induction l with
  | nil => intro h; exact absurd rfl h
  | cons x xs ih =>
    intro _ hall
    have hxv : x = v := hall x (List.mem_cons_self x xs)
    cases xs with
    | nil => simp [hxv]
    | cons y ys =>
      have hyv : y = v := hall y (by simp)
      have hmem : x ∈ y :: ys := by
        rw [hxv, ← hyv]; exact List.mem_cons_self y ys
      rw [List.dedup_cons_of_mem hmem]
      exact ih (by simp) (fun z hz => hall z (List.mem_cons_of_mem _ hz))

theorem foldl_keys_alookup (upd : Row → String → Row)
    (g : Option Value → Option Value) (F : String)
    (hframe : ∀ (r : Row) (k k' : String), k' ≠ k → alookup (upd r k) k' = alookup r k')
    (hself : ∀ r : Row, alookup (upd r F) F = g (alookup r F)) :
    ∀ (keys : List String) (r : Row), keys.Nodup →
      alookup (keys.foldl upd r) F =
        if F ∈ keys then g (alookup r F) else alookup r F := by
  intro keys
  induction keys with
  | nil => intro r _; simp
  | cons k ks ih =>
    intro r hnd
    rcases List.nodup_cons.mp hnd with ⟨hk, hnd'⟩
    simp only [List.foldl_cons]
    by_cases hF : F = k
    · subst hF
      rw [ih (upd r F) hnd']
      simp [hk, hself r]
    · rw [ih (upd r k) hnd']
      have hfr : alookup (upd r k) F = alookup r F := hframe r k F hF
      by_cases hmem : F ∈ ks <;>
        simp [hmem, hF, hfr, List.mem_cons]

theorem propagatable_nodup : propagatable.Nodup := by decide

theorem multivalued_nodup : multivalued.Nodup := by decide

theorem alookup_condensedPairs (records : List Record) (F : String)
    (hF : F ∈ propagatable) :
    alookup (condensedPairs records) F = condValue records F :=
  alookup_filterMap_tag propagatable (condValue records) F propagatable_nodup hF

theorem alookup_some_mem_keys {α : Type} (l : List (String × α)) (F : String)
    (v : α) (h : alookup l F = some v) : F ∈ l.map Prod.fst := by
  induction l with
  | nil => simp [alookup] at h
  | cons kv rest ih =>
    by_cases hk : kv.1 = F
    · simp [hk]
    · simp only [alookup, if_neg hk] at h
      exact List.mem_cons_of_mem _ (ih h)

theorem alookup_propagateStep (md row : Row) (F : String) :
    alookup (propagateStep md row) F =
      if F ∈ propagatable then propagatedValue md F (alookup row F)
      else alookup row F := by
  refine foldl_keys_alookup _ (propagatedValue md F) F ?_ ?_ propagatable
    row propagatable_nodup
  · intro r k k' hk
    cases hmd : alookup md k with
    | none => simp [hmd]
    | some v =>
      by_cases ht : ((alookup r k).map Value.truthy).getD false
      · simp [hmd, ht]
      · simp [hmd, ht, alookup_ainsert_ne r k k' _ (fun e => hk e.symm)]
  · intro r
    cases hmd : alookup md F with
    | none => simp [hmd, propagatedValue]
    | some v =>
      by_cases ht : ((alookup r F).map Value.truthy).getD false
      · simp [hmd, ht, propagatedValue]
      · simp [hmd, ht, propagatedValue, propWrap, alookup_ainsert_self]

theorem alookup_splitStep (row : Row) (F : String) :
    alookup (splitStep row) F =
      if F ∈ multivalued then splitValue (alookup row F)
      else alookup row F := by
  refine foldl_keys_alookup _ splitValue F ?_ ?_ multivalued row multivalued_nodup
  · intro r k k' hk
    cases hv : alookup r k with
    | none => simp [hv]
    | some v =>
      by_cases ht : v.truthy && v.isStr
      · cases v <;>
          simp_all [alookup_ainsert_ne r k k' _ (fun e => hk e.symm), Value.isStr]
      · simp [hv, ht]
  · intro r
    cases hv : alookup r F with
    | none => simp [hv, splitValue]
    | some v =>
      by_cases ht : v.truthy && v.isStr
      · cases v <;> simp_all [splitValue, Value.isStr, alookup_ainsert_self]
      · simp [hv, ht, splitValue]

/-! ## Claim theorems -/

/-- C1: the spec claims that writing a mapping with `write` and reading the
produced file back with `read` reproduces the mapping up to
field-presence normalization.  The code violates this: `parse_record`
(whose body ends in a `TODO there's more to do!` comment) rebuilds only the
triple, justification, mapping tool, mapping set and the
author/creator/reviewer lists, so the round trip silently drops the
`comment` of `c1Mapping` — the mapping comes back with `comment = None`
although it went in with `comment = "x"`. -/
theorem c1_roundtrip_loses_comment :
    writeReadRoundTrip [c1Mapping] c1Converter = .ok [c1MappingRead] ∧
    c1MappingRead.comment = none ∧ c1Mapping.comment = some "x" :=
  ⟨rfl, rfl, rfl⟩

/-- C4: the spec claims the write path pipe-joins multivalued list values.
The code's `_unprocess_row` guards the join with `isinstance(v, str)`, so a
list value is left as a Python list (serialized by the CSV writer as its
`repr`) and `"|".join` would only ever fire on a string, interleaving `|`
between its characters; splitting the serialized cell back does not return
the original list. -/
theorem c4_write_never_joins_lists :
    alookup (_unprocess_row c4Record []) "author_id" = some (.vlist c4Authors) ∧
    renderCell (.vlist c4Authors) = "['orcid:0000-1', 'orcid:0000-2']" ∧
    splitPipe (renderCell (.vlist c4Authors)) ≠ c4Authors ∧
    pipeJoinChars "ab" = "a|b" :=
  ⟨rfl, rfl, by decide, rfl⟩

/-- C6: the spec claims condensation never raises for any value type a
propagatable record field can carry, including dates.  `mapping_date` is
propagatable and `datetime.date`-typed, and `_get_condensation` raises
`TypeError` on any value that is not `None`, `str` or `list`; writing a
record whose `mapping_date` is set therefore fails. -/
theorem c6_condensation_raises_on_date :
    _get_condensation [c6Record] = .error "TypeError: unhandled value type" ∧
    write_unprocessed [c6Record] (some c9Metadata) .w none []
      = .error "TypeError: unhandled value type" :=
  ⟨rfl, rfl⟩

theorem alookup_some_mem {α : Type} (l : List (String × α)) (F : String) (v : α)
    (h : alookup l F = some v) : (F, v) ∈ l := by
  induction l with
  | nil => simp [alookup] at h
  | cons kv rest ih =>
    by_cases hk : kv.1 = F
    · simp only [alookup, if_pos hk] at h
      cases h
      exact List.mem_cons.mpr (Or.inl (by rw [← hk]))
    · simp only [alookup, if_neg hk] at h
      exact List.mem_cons_of_mem _ (ih h)

theorem mem_alookup_isSome {α : Type} (l : List (String × α)) (F : String) (v : α)
    (h : (F, v) ∈ l) : (alookup l F).isSome = true := by
  induction l with
  | nil => cases h
  | cons kv rest ih =>
    by_cases hk : kv.1 = F
    · simp [alookup, hk]
    · rcases List.mem_cons.mp h with h1 | h2
      · exact absurd (congrArg Prod.fst h1.symm) hk
      · simpa [alookup, hk] using ih h2

theorem alookup_none_not_mem {α : Type} (l : List (String × α)) (F : String)
    (h : alookup l F = none) : F ∉ l.map Prod.fst := by
  induction l with
  | nil => simp
  | cons kv rest ih =>
    by_cases hk : kv.1 = F
    · simp [alookup, hk] at h
    · simp only [alookup, if_neg hk] at h
      intro hmem
      simp only [List.map_cons, List.mem_cons] at hmem
      rcases hmem with h1 | h2
      · exact hk h1.symm
      · exact ih h h2

theorem cval_ne_cnone_isSome (r : Record) (F : String)
    (h : cval r F ≠ .cnone) : (r.get F).isSome = true := by
  unfold cval at h
  cases hg : r.get F with
  | none => rw [hg] at h; exact absurd rfl h
  | some v => simp

theorem propagatable_subset_recordFields :
    ∀ f ∈ propagatable, f ∈ recordFields := by decide

/-- C2 (counterexample): `mapping_provider` has exactly one distinct
non-absent value (`"x"`) across the two records — the second record simply
lacks it — yet the code does not condense it (absence counts as a second
distinct `Counter` key), so it stays a per-row column and never reaches the
frontmatter metadata. -/
theorem c2_counterexample_absence_blocks_condensation :
    cval c2RecordVal "mapping_provider" = .cstr "x" ∧
    cval c2RecordNone "mapping_provider" = .cnone ∧
    _get_condensation [c2RecordVal, c2RecordNone] = .ok [] ∧
    alookup (condensedPairs [c2RecordVal, c2RecordNone]) "mapping_provider" = none ∧
    writerColumns [c2RecordVal, c2RecordNone] = ["subject_id", "mapping_provider"] :=
  ⟨rfl, rfl, rfl, rfl, rfl⟩

/-- C2 (amended): for a propagatable field `F`, with absence itself counted
as one of the distinct observed values (as the code's `Counter` does): if
`F` carries one and the same non-absent value in **every** record of a
non-empty collection, that value is condensed into the metadata and `F` is
excluded from the emitted columns; if two records disagree on `F`
(including by absence), `F` is not condensed and appears as a per-row
column; and a field absent everywhere is never condensed. -/
theorem c2_condensation_characterization (records : List Record) (F : String)
    (hF : F ∈ propagatable) :
    (∀ v : CVal, v ≠ .cnone → v ≠ .cerror → records ≠ [] →
      (∀ r ∈ records, cval r F = v) →
      alookup (condensedPairs records) F = some v ∧ F ∉ writerColumns records) ∧
    (∀ r₁ r₂, r₁ ∈ records → r₂ ∈ records → cval r₁ F ≠ cval r₂ F →
      alookup (condensedPairs records) F = none ∧ F ∈ writerColumns records) ∧
    ((∀ r ∈ records, cval r F = .cnone) →
      alookup (condensedPairs records) F = none) := by
  have hlook := alookup_condensedPairs records F hF
  refine ⟨?_, ?_, ?_⟩
  · intro v hvn hve hne hall
    have hmapne : records.map (fun r => cval r F) ≠ [] := by
      simpa using hne
    have hconst : ∀ x ∈ records.map (fun r => cval r F), x = v := by
      intro x hx
      rcases List.mem_map.mp hx with ⟨r, hr, hrx⟩
      exact hrx ▸ hall r hr
    have hded : distinctVals records F = [v] := by
      unfold distinctVals
      exact dedup_const v _ hmapne hconst
    have hcv : condValue records F = some v := by
      unfold condValue
      rw [hded]
      cases v with
      | cnone => exact absurd rfl hvn
      | cerror => exact absurd rfl hve
      | cstr s => rfl
      | ctuple l => rfl
    have hsome : alookup (condensedPairs records) F = some v := hlook.trans hcv
    refine ⟨hsome, ?_⟩
    have hmem := alookup_some_mem _ F v hsome
    intro hWC
    unfold writerColumns at hWC
    have := (List.mem_filter.mp hWC).2
    simp at this
    exact this v hmem
  · intro r₁ r₂ hr₁ hr₂ hneq
    have hm₁ : cval r₁ F ∈ distinctVals records F := by
      unfold distinctVals
      exact List.mem_dedup.mpr (List.mem_map.mpr ⟨r₁, hr₁, rfl⟩)
    have hm₂ : cval r₂ F ∈ distinctVals records F := by
      unfold distinctVals
      exact List.mem_dedup.mpr (List.mem_map.mpr ⟨r₂, hr₂, rfl⟩)
    have hcv : condValue records F = none := by
      unfold condValue
      rcases hd : distinctVals records F with _ | ⟨w, _ | ⟨x, t⟩⟩
      · rfl
      · rw [hd] at hm₁ hm₂
        have h₁ : cval r₁ F = w := by simpa using hm₁
        have h₂ : cval r₂ F = w := by simpa using hm₂
        exact absurd (h₁.trans h₂.symm) hneq
      · cases w <;> rfl
    have hnone : alookup (condensedPairs records) F = none := hlook.trans hcv
    refine ⟨hnone, ?_⟩
    have hsome : ∃ r ∈ records, (r.get F).isSome = true := by
      by_cases h₁ : cval r₁ F = .cnone
      · have h₂ : cval r₂ F ≠ .cnone := fun h => hneq (h₁.trans h.symm)
        exact ⟨r₂, hr₂, cval_ne_cnone_isSome r₂ F h₂⟩
      · exact ⟨r₁, hr₁, cval_ne_cnone_isSome r₁ F h₁⟩
    unfold writerColumns
    refine List.mem_filter.mpr ⟨?_, ?_⟩
    · unfold _get_columns
      refine List.mem_filter.mpr ⟨propagatable_subset_recordFields F hF, ?_⟩
      rcases hsome with ⟨r, hr, hrs⟩
      simpa using List.any_eq_true.mpr ⟨r, hr, hrs⟩
    · simp
      intro x hx
      have := mem_alookup_isSome _ F x hx
      rw [hnone] at this
      cases this
  · intro hall
    cases records with
    | nil => rfl
    | cons r rs =>
      have hmapne : (r :: rs).map (fun x => cval x F) ≠ [] := by simp
      have hconst : ∀ x ∈ (r :: rs).map (fun x => cval x F), x = CVal.cnone := by
        intro x hx
        rcases List.mem_map.mp hx with ⟨r', hr', hrx⟩
        exact hrx ▸ hall r' hr'
      have hded : distinctVals (r :: rs) F = [.cnone] := by
        unfold distinctVals
        exact dedup_const _ _ hmapne hconst
      rw [hlook]
      unfold condValue
      rw [hded]

/-- C2 (witness): with the same `mapping_provider = "x"` in both records,
the field is condensed to the metadata and dropped from the columns. -/
theorem c2_witness :
    alookup (condensedPairs [c2RecordVal, c2RecordVal]) "mapping_provider"
        = some (.cstr "x") ∧
    "mapping_provider" ∉ writerColumns [c2RecordVal, c2RecordVal] :=
  (c2_condensation_characterization [c2RecordVal, c2RecordVal] "mapping_provider"
    (by decide)).1 (.cstr "x") (by decide) (by decide) (by decide) (by decide)

/-- C3: in `_preprocess_row`, a row that already carries a truthy value for
a propagatable field is unaffected by the merged metadata — the result at
that field is the same as if no metadata had been supplied at all; the
metadata value is copied in only when the row's own value is absent or
falsy, wrapped into a singleton list when the field is multivalued and the
metadata value is a plain string, and left as-is otherwise. -/
theorem c3_row_value_beats_metadata (row md : Row) (F : String)
    (hF : F ∈ propagatable) :
    (((alookup row F).map Value.truthy).getD false = true →
      alookup (_preprocess_row row (some md)) F
        = alookup (_preprocess_row row none) F) ∧
    (((alookup row F).map Value.truthy).getD false = false → md ≠ [] →
      ∀ v, alookup md F = some v →
      alookup (_preprocess_row row (some md)) F = some (propWrap F v)) := by
  constructor
  · intro ht
    by_cases hmd : md.isEmpty
    · simp [_preprocess_row, hmd]
    · simp only [_preprocess_row, hmd, if_neg, Bool.false_eq_true, not_false_iff,
        if_false]
      rw [alookup_splitStep, alookup_splitStep]
      have hprop : alookup (propagateStep md row) F = alookup row F := by
        rw [alookup_propagateStep, if_pos hF]
        unfold propagatedValue
        cases hv : alookup md F with
        | none => rfl
        | some v => simp [ht]
      rw [hprop]
  · intro hfalse hmdne v hv
    have hmd : md.isEmpty = false := by
      cases md
      · exact absurd rfl hmdne
      · rfl
    simp only [_preprocess_row, hmd, Bool.false_eq_true, not_false_iff, if_false]
    rw [alookup_splitStep]
    have hprop : alookup (propagateStep md row) F = some (propWrap F v) := by
      rw [alookup_propagateStep, if_pos hF]
      unfold propagatedValue
      rw [hv, hfalse]
      simp
    rw [hprop]
    by_cases hmv : F ∈ multivalued
    · rw [if_pos hmv]
      have hcont : multivalued.contains F = true := by
        simpa using hmv
      cases v with
      | vstr s => simp [propWrap, hcont, hmv, Value.isStr, splitValue, Value.truthy]
      | vlist l => simp [propWrap, hcont, hmv, Value.isStr, splitValue]
      | vdate d => simp [propWrap, hcont, hmv, Value.isStr, splitValue]
      | vmap m => simp [propWrap, hcont, hmv, Value.isStr, splitValue]
      | vtuple l => simp [propWrap, hcont, hmv, Value.isStr, splitValue]
    · rw [if_neg hmv]

/-- C3 (witness): a row whose `subject_source` is `"s1"` keeps it even when
the metadata says `"m1"`. -/
theorem c3_witness :
    alookup (_preprocess_row [("subject_source", Value.vstr "s1")]
        (some [("subject_source", Value.vstr "m1")])) "subject_source"
      = alookup (_preprocess_row [("subject_source", Value.vstr "s1")] none)
        "subject_source" :=
  (c3_row_value_beats_metadata [("subject_source", Value.vstr "s1")]
    [("subject_source", Value.vstr "m1")] "subject_source" (by decide)).1 (by decide)

/-- C5 (counterexample): the spec claims append mode reuses the existing
frontmatter/header and fatally rejects records that would need a column not
in the existing header.  The code does neither: appending `c5Record` —
which needs a `comment` column foreign to the four-column header of
`c5Existing` — succeeds, and simply appends a complete fresh
frontmatter + header + rows block after the old content. -/
theorem c5_counterexample_append_does_not_validate :
    write_unprocessed [c5Record] (some c5Metadata) .a none c5Existing =
      .ok (c5Metadata,
        c5Existing ++
          ["#curie_map:", "#  p: https://puri/", "subject_id\tcomment", "p:1\tnew"]) ∧
    writerColumns [c5Record] = ["subject_id", "comment"] ∧
    pySplit (pyStrip "subject_id\tpredicate_id\tobject_id\tmapping_justification") '\t'
      = ["subject_id", "predicate_id", "object_id", "mapping_justification"] :=
  ⟨rfl, rfl, rfl⟩

/-- C5 (amended): `mode="a"` in `write_unprocessed` only changes how the
file is opened: the writer recomputes condensation, frontmatter and header
from the new records alone and appends that complete block after the
existing content, raising no error about columns missing from the existing
header; the error behavior is identical to a fresh write. -/
theorem c5_append_appends_fresh_block (records : List Record)
    (metadata? : Option Row) (converter? : Option (List (String × String)))
    (existing : List String) :
    write_unprocessed records metadata? .a converter? existing =
      (write_unprocessed records metadata? .w converter? []).map
        (fun p => (p.1, existing ++ p.2)) := by
  unfold write_unprocessed
  cases hc : _get_condensation records with
  | error e => rfl
  | ok cond =>
    simp only [bind, Except.bind]
    cases hm : resolveConverterMetadata (condInsert (metadata?.getD []) cond)
        converter? with
    | error e => rfl
    | ok md2 =>
      simp only [bind, Except.bind]
      cases hb : writeBody records cond md2 with
      | error e => rfl
      | ok body => rfl

/-- C7 (spec-modelled, `process.py` is absent from the sources): `curate`
raises `ValueError` for every mark outside the closed vocabulary, and
raises when an already-unsure mapping is marked `"unsure"` again. -/
theorem c7_curate_closed_vocabulary (m : SemanticMapping) (authors : List RefN)
    (mark : String) (confidence : Option String) (today : String) :
    (mark ∉ markVocabulary →
      curate m authors mark confidence today
        = .error ("ValueError: invalid mark: " ++ mark)) ∧
    (hasUnsureMarker m = true →
      curate m authors "unsure" confidence today
        = .error "ValueError: already marked unsure") := by
  constructor
  · intro h
    have hc : ¬ (markVocabulary.contains mark = true) := by simpa using h
    unfold curate
    rw [if_pos hc]
  · intro h
    unfold curate
    rw [if_neg (by decide), if_pos rfl, if_pos h]

/-- C7 (witness): `"NOPE"` is rejected, and re-marking the already-unsure
`c7Mapping` as `"unsure"` raises. -/
theorem c7_witness :
    curate c7Mapping [⟨"orcid", "1", none⟩] "NOPE" none "2025-01-01"
      = .error "ValueError: invalid mark: NOPE" ∧
    curate c7Mapping [⟨"orcid", "1", none⟩] "unsure" none "2025-01-01"
      = .error "ValueError: already marked unsure" :=
  ⟨(c7_curate_closed_vocabulary c7Mapping [⟨"orcid", "1", none⟩] "NOPE" none
      "2025-01-01").1 (by decide),
   (c7_curate_closed_vocabulary c7Mapping [⟨"orcid", "1", none⟩] "unsure" none
      "2025-01-01").2 (by decide)⟩

/-- C8 (counterexample): a zero-line file is **not** a fatal error: the
frontmatter loop ends at end-of-file, the header becomes the single empty
column name `[""]`, and `read_unprocessed` returns zero records together
with the built-in default prefix map. -/
theorem c8_counterexample_empty_file_reads_ok :
    _chomp_frontmatter [] = ([""], [], []) ∧
    read_unprocessed [] none none none = .ok ([], defaultPrefixMap) :=
  ⟨rfl, rfl⟩

/-- C8 (amended): a comment line that becomes empty after stripping the
`#` markers and trailing whitespace is skipped without terminating the
frontmatter block; a file with zero lines is not an error — it yields the
single empty column name and zero records. -/
theorem c8_blank_comment_lines_skipped (acc : List String) (s : String)
    (rest : List String) (h1 : startsWithHash s = true)
    (h2 : pyRstrip (lstripHash s) = "") :
    chompAux acc (s :: rest) = chompAux acc rest ∧
    read_unprocessed [] none none none = .ok ([], defaultPrefixMap) := by
  refine ⟨?_, rfl⟩
  conv_lhs => rw [chompAux]
  rw [if_pos h1, if_pos h2]

/-- C8 (witness): a bare `#` line inside the frontmatter is skipped and the
following line still becomes the header. -/
theorem c8_witness :
    chompAux [] ["#", "subject_id"] = chompAux [] ["subject_id"] :=
  (c8_blank_comment_lines_skipped [] "#" ["subject_id"] (by decide) (by decide)).1

/-- C9 (counterexample): the spec claims that when a converter is supplied
no error is raised and its prefix map is emitted as the `curie_map`
frontmatter key.  But when the metadata **also** carries a non-empty
`curie_map`, the writer raises `NotImplementedError` instead. -/
theorem c9_counterexample_converter_with_curie_map :
    write_unprocessed [c9Record] (some c9Metadata) .w (some c9Converter) []
      = .error "NotImplementedError" := rfl

/-- C9 (amended): after condensation, with no converter and no truthy
`curie_map` in the metadata the write raises the configuration `ValueError`
before producing any output; with a converter and no truthy `curie_map` the
configuration step succeeds and assigns the converter's bimap under
`curie_map`; with a converter **and** a truthy `curie_map` the write raises
`NotImplementedError`. -/
theorem c9_prefix_map_requirement (records : List Record) (metadata? : Option Row)
    (cond : List (String × CVal)) (hc : _get_condensation records = .ok cond) :
    (((alookup (condInsert (metadata?.getD []) cond) prefixMapKey).map
        Value.truthy).getD false = false →
      write_unprocessed records metadata? .w none []
        = .error ("ValueError: must have " ++ prefixMapKey
            ++ " in metadata if converter not given")) ∧
    (∀ c, ((alookup (condInsert (metadata?.getD []) cond) prefixMapKey).map
        Value.truthy).getD false = false →
      resolveConverterMetadata (condInsert (metadata?.getD []) cond) (some c)
          = .ok (ainsert (condInsert (metadata?.getD []) cond) prefixMapKey (.vmap c)) ∧
      alookup (ainsert (condInsert (metadata?.getD []) cond) prefixMapKey (.vmap c))
          prefixMapKey = some (.vmap c)) ∧
    (∀ c, ((alookup (condInsert (metadata?.getD []) cond) prefixMapKey).map
        Value.truthy).getD false = true →
      write_unprocessed records metadata? .w (some c) []
        = .error "NotImplementedError") := by
  refine ⟨?_, ?_, ?_⟩
  · intro h
    unfold write_unprocessed
    rw [hc]
    simp only [bind, Except.bind]
    unfold resolveConverterMetadata
    rw [if_neg (by simp [h])]
  · intro c h
    constructor
    · simp [resolveConverterMetadata, h]
    · exact alookup_ainsert_self _ _ _
  · intro c h
    unfold write_unprocessed
    rw [hc]
    simp only [bind, Except.bind]
    simp [resolveConverterMetadata, h]

/-- C9 (witness): with one record, empty metadata and no converter the
configuration `ValueError` is raised. -/
theorem c9_witness :
    write_unprocessed [c9Record] none .w none []
      = .error ("ValueError: must have " ++ prefixMapKey
          ++ " in metadata if converter not given") :=
  (c9_prefix_map_requirement [c9Record] none [] (by rfl)).1 (by decide)

/-- C10: whenever `write_unprocessed` succeeds on a caller-supplied
metadata dict, the metadata it leaves behind (the final state of the very
dict object the caller passed, which the Python code mutates in place with
`metadata[key] = value`) is the caller's dict with every condensed
key-value pair assigned into it, plus — when a converter was given — the
converter's bimap assigned under `curie_map`.  Passing the dict to a
second write therefore carries these keys over. -/
theorem c10_metadata_mutated (records : List Record) (metadata : Row)
    (mode : WMode) (converter? : Option (List (String × String)))
    (existing : List String) (md' : Row) (lines : List String)
    (h : write_unprocessed records (some metadata) mode converter? existing
      = .ok (md', lines)) :
    md' = match converter? with
      | none => condInsert metadata (condensedPairs records)
      | some c =>
        ainsert (condInsert metadata (condensedPairs records)) prefixMapKey
          (.vmap c) := by
  unfold write_unprocessed at h
  rcases hc : _get_condensation records with e | cond
  · rw [hc] at h
    simp [bind, Except.bind] at h
  · have hcond : cond = condensedPairs records := by
      unfold _get_condensation at hc
      split at hc
      · exact (Except.ok.injEq _ _).mp hc.symm ▸ rfl
      · cases hc
    rw [hc] at h
    simp only [bind, Except.bind, Option.getD_some] at h
    rcases hm : resolveConverterMetadata (condInsert metadata cond) converter?
        with e | md2
    · rw [hm] at h
      cases h
    · rw [hm] at h
      simp only [] at h
      rcases hb : writeBody records cond md2 with e | body
      · rw [hb] at h
        cases h
      · rw [hb] at h
        have hmd : md' = md2 := by
          cases mode <;> cases h <;> rfl
        subst hmd hcond
        cases converter? with
        | none =>
          simp only [resolveConverterMetadata] at hm
          by_cases hcnd : ((alookup (condInsert metadata (condensedPairs records))
              prefixMapKey).map Value.truthy).getD false = true
          · rw [if_pos hcnd] at hm
            cases hm
            rfl
          · rw [if_neg hcnd] at hm
            cases hm
        | some c =>
          simp only [resolveConverterMetadata] at hm
          by_cases hcnd : ((alookup (condInsert metadata (condensedPairs records))
              prefixMapKey).map Value.truthy).getD false = true
          · rw [if_pos hcnd] at hm
            cases hm
          · rw [if_neg hcnd] at hm
            cases hm
            rfl

/-- C10 (witness): writing one record with a uniform `subject_source` under
an initially empty metadata dict leaves the dict holding the condensed
`subject_source` and the converter's `curie_map` — observably different
from the empty dict that was passed in. -/
theorem c10_witness :
    ([("subject_source", Value.vstr "src:1"), (prefixMapKey, Value.vmap c9Converter)]
        : Row)
      = ainsert (condInsert [] (condensedPairs c10Records)) prefixMapKey
          (.vmap c9Converter) ∧
    ([("subject_source", Value.vstr "src:1"), (prefixMapKey, Value.vmap c9Converter)]
        : Row) ≠ [] :=
  ⟨c10_metadata_mutated c10Records [] .w (some c9Converter) []
      [("subject_source", Value.vstr "src:1"), (prefixMapKey, Value.vmap c9Converter)]
      ["#curie_map:", "#  p: https://puri/", "#  src: https://suri/",
       "#subject_source: src:1", "subject_id", "p:1"] rfl,
   by decide⟩

end SSSOM
